import Mathlib

/-!
Shallow embedding of `src/flask_app/app.py` (gasbugs/lgtm-docker).

The program is a Flask endpoint `/complex-operation` that runs a fixed
pipeline of phases under OpenTelemetry spans:

* root span `complex_operation`
* sequential child spans `database_query`, `processing`
* a concurrent fan-out `asyncio.gather(async_operation("task1"), ..., "task3")`
  where `async_operation(name)` opens a span `f"async_{name}"`
* a blocking call `external_api_call(url)` that opens a span
  `external_api_call`, performs `requests.get(url)` and returns
  `response.json()`
* a final sequential child span `final_computation`
* returns `{"message": "Complex operation completed", "external_data": ...}`.

Span semantics follow the OpenTelemetry context managers used by the code
(`tracer.start_as_current_span`): a span is opened as a child of the current
context's innermost active span, and on exit of the `with` block it is ended;
if the block raised, the span's status is set to error with the exception as
detail and the exception propagates (the library defaults
`set_status_on_exception=True`, `end_on_exit=True`).

Time is a logical clock advanced at every event.  Nondeterminism of one
invocation is captured by an `Env`: the random sleep durations of the three
fan-out tasks (which determine only the order in which their spans close)
and the outcome of the single `requests.get` (transport failure, or a
response with a status code and a body that may or may not parse as JSON).
-/

/-- Status of a span.  OpenTelemetry spans left untouched on normal exit
keep status UNSET (which the spec calls "success"); a span whose `with`
block raised gets status ERROR carrying the exception as detail. -/
inductive SpanStatus where
  | unset : SpanStatus
  | error : String → SpanStatus
deriving DecidableEq, Repr

/-- `true` exactly for error status; "success" in the spec's sense is
`isError = false`. -/
def SpanStatus.isError : SpanStatus → Bool
  | .unset => false
  | .error _ => true

/-- A completed span: identity, optional parent link, name, logical start
and end times, status, and the logical execution path (0 = the main
coroutine, 1..3 = the three fan-out task contexts) that opened it. -/
structure Span where
  sid : Nat
  parent : Option Nat
  name : String
  startT : Nat
  endT : Nat
  status : SpanStatus
  path : Nat
deriving DecidableEq, Repr

/-- Mutable tracing state threaded through one invocation: the next fresh
span id, the logical clock, the current path's context stack (innermost
active span id first), and the completed spans in completion order (the
order they are handed to the span processor). -/
structure TraceState where
  nextSid : Nat
  clock : Nat
  stack : List Nat
  finished : List Span
deriving DecidableEq, Repr

/-- One unit of simulated work (`asyncio.sleep` / blocking I/O): advances
the logical clock. -/
def tick (st : TraceState) : TraceState :=
  { st with clock := st.clock + 1 }

/-- `with tracer.start_as_current_span(name):` around `body`.  Opens a span
whose parent is the innermost active span of the current context, runs the
body, and on exit ends the span: status error iff the body raised, in which
case the exception keeps propagating. -/
def withSpan {α : Type} (name : String) (path : Nat) (st : TraceState)
    (body : TraceState → TraceState × Except String α) :
    TraceState × Except String α :=
  let sid := st.nextSid
  let parent := st.stack.head?
  let startT := st.clock
  let st1 : TraceState :=
    { nextSid := sid + 1, clock := st.clock + 1, stack := sid :: st.stack,
      finished := st.finished }
  let res := body st1
  let st2 := res.1
  let status : SpanStatus :=
    match res.2 with
    | .ok _ => .unset
    | .error e => .error e
  let sp : Span :=
    { sid := sid, parent := parent, name := name, startT := startT,
      endT := st2.clock, status := status, path := path }
  ({ nextSid := st2.nextSid, clock := st2.clock + 1, stack := st2.stack.tail,
     finished := st2.finished ++ [sp] }, res.2)

/-- The body of the pure simulation phases (`await asyncio.sleep(...)` then
`logger.info(...)`): it only consumes time and cannot raise. -/
def simPhase (st : TraceState) : TraceState × Except String Unit :=
  (tick st, .ok ())

/-- Outcome of `requests.get(url)`: either the transport raises, or a
response arrives with a status code and a body; `jsonBody = some j` when
the body parses as JSON (so `response.json()` returns `j`), `none` when it
does not (so `response.json()` raises). -/
structure HttpResponse where
  status_code : Nat
  jsonBody : Option String
deriving DecidableEq, Repr

inductive HttpOutcome where
  | fail : String → HttpOutcome
  | resp : HttpResponse → HttpOutcome
deriving DecidableEq, Repr

/-- `external_api_call(url)` from the source: opens span
`external_api_call`, performs one `requests.get(url)` (no retry), logs the
status code, and returns `response.json()`.  The status code is never
inspected; the call raises exactly when the transport fails or the body is
not valid JSON. -/
def external_api_call (outcome : HttpOutcome) (path : Nat)
    (st : TraceState) : TraceState × Except String String :=
  withSpan "external_api_call" path st fun st1 =>
    match outcome with
    | .fail msg => (tick st1, .error msg)
    | .resp r =>
      match r.jsonBody with
      | some j => (tick st1, .ok j)
      | none => (tick st1, .error "JSONDecodeError")

/-- Span name used by `async_operation(name)`: the f-string
`f"async_{name}"`. -/
def async_operation_name (name : String) : String := "async_" ++ name

/-- Record of a fan-out task's span at the moment it is opened (each task
runs up to its `await asyncio.sleep`, having opened its span). -/
structure OpenTask where
  sid : Nat
  name : String
  startT : Nat
  parent : Option Nat
  path : Nat
deriving DecidableEq, Repr

/-- Stable insertion by duration: a task is placed after every
already-scheduled task with a smaller or equal duration, matching the
event loop's FIFO handling of timer callbacks with equal deadlines. -/
def insertByDur (d : Fin 3 → Nat) (i : Fin 3) :
    List (Fin 3) → List (Fin 3)
  | [] => [i]
  | j :: rest =>
    if d j ≤ d i then j :: insertByDur d i rest else i :: j :: rest

/-- Order in which the three gathered tasks' sleeps expire, hence the order
their spans close: tasks sorted by sleep duration, ties resolved in task
creation order. -/
def gatherCompletionOrder (d : Fin 3 → Nat) : List (Fin 3) :=
  insertByDur d 2 (insertByDur d 1 (insertByDur d 0 []))

/-- The names passed to `async_operation` at the gather call site. -/
def taskArg : Fin 3 → String
  | 0 => "task1"
  | 1 => "task2"
  | 2 => "task3"

/-- `asyncio.gather(async_operation("task1"), ..., "task3")` given the
order `ord` in which the three sleeps expire.  Each task runs under a copy
of the caller's context (so its span's parent is the caller's innermost
active span, and the caller's stack is untouched).  The tasks start in
creation order, each opening its span and suspending at its sleep; they
then resume and close their spans in the order `ord`.  The gather only
returns once all tasks have finished. -/
def runGatherWith (ord : List (Fin 3)) (st : TraceState) : TraceState :=
  let parent := st.stack.head?
  let ot : Fin 3 → OpenTask := fun i =>
    { sid := st.nextSid + i.val,
      name := async_operation_name (taskArg i),
      startT := st.clock + i.val, parent := parent, path := i.val + 1 }
  let st1 : TraceState :=
    { st with nextSid := st.nextSid + 3, clock := st.clock + 3 }
  ord.foldl
    (fun s i =>
      { s with
        clock := s.clock + 1,
        finished := s.finished ++
          [{ sid := (ot i).sid, parent := (ot i).parent,
             name := (ot i).name, startT := (ot i).startT,
             endT := s.clock, status := .unset, path := (ot i).path }] })
    st1

/-- The gather step of `complex_operation`, with the close order derived
from the three random sleep durations. -/
def runGather (d : Fin 3 → Nat) (st : TraceState) : TraceState :=
  runGatherWith (gatherCompletionOrder d) st

/-- The nondeterministic inputs of one invocation. -/
structure Env where
  d : Fin 3 → Nat
  http : HttpOutcome

/-- The JSON body returned by the endpoint on success. -/
structure OpResult where
  message : String
  external_data : String
deriving DecidableEq, Repr

/-- Fresh tracing state at the start of one invocation. -/
def initState : TraceState :=
  { nextSid := 0, clock := 0, stack := [], finished := [] }

/-- The `/complex-operation` handler, over an explicit close order `ord`
for the gather.  Mirrors the source line by line: root span, sequential
`database_query` and `processing` spans, the gather, the external call,
and (only if the external call returned) the `final_computation` span and
the success response.  An exception from the external call propagates
through the root `with` block, marking the root span error. -/
def complexOperationWith (ord : List (Fin 3)) (http : HttpOutcome) :
    TraceState × Except String OpResult :=
  withSpan "complex_operation" 0 initState fun st0 =>
    let r1 := withSpan "database_query" 0 st0 simPhase
    let r2 := withSpan "processing" 0 r1.1 simPhase
    let st3 := runGatherWith ord r2.1
    let r4 := external_api_call http 0 st3
    match r4.2 with
    | .error e => (r4.1, .error e)
    | .ok data =>
      let r5 := withSpan "final_computation" 0 r4.1 simPhase
      (r5.1, .ok { message := "Complex operation completed",
                   external_data := data })

/-- One invocation of `complex_operation` under environment `env`. -/
def complex_operation (env : Env) : TraceState × Except String OpResult :=
  complexOperationWith (gatherCompletionOrder env.d) env.http

/-- The completed spans emitted by one invocation, in the order they were
handed to the span processor. -/
def trace (env : Env) : List Span :=
  (complex_operation env).1.finished

/-- Did the invocation raise (Flask then answers with an error response)? -/
def raised : Except String OpResult → Bool
  | .ok _ => false
  | .error _ => true

/-- The exception raised by `external_api_call` under `o`, if any:
`requests.get` raising on transport failure, or `response.json()` raising
on a body that is not valid JSON.  The HTTP status code is never
inspected. -/
def extErr : HttpOutcome → Option String
  | .fail msg => some msg
  | .resp r =>
    match r.jsonBody with
    | none => some "JSONDecodeError"
    | some _ => none

/-- `true` iff the external call raises under `o`. -/
def extRaises (o : HttpOutcome) : Bool := (extErr o).isSome

/-- The three sub-task span names produced at the gather call site. -/
def asyncNames : List String :=
  [async_operation_name "task1", async_operation_name "task2",
   async_operation_name "task3"]

/-- Every span name the program can ever emit. -/
def allSpanNames : List String :=
  ["complex_operation", "database_query", "processing",
   "external_api_call", "final_computation"] ++ asyncNames

/-- Number of spans named `n` in `t`. -/
def countName (t : List Span) (n : String) : Nat :=
  (t.filter fun sp => sp.name == n).length

/-- Every span has `endT ≥ startT`, and every parent link points at a span
of the trace whose `[start, end)` interval contains the child's. -/
def wellNested (t : List Span) : Bool :=
  t.all fun sp =>
    decide (sp.startT ≤ sp.endT) &&
    (match sp.parent with
     | none => true
     | some pid =>
       t.any fun p =>
         p.sid == pid && decide (p.startT ≤ sp.startT) &&
          decide (sp.endT ≤ p.endT))

/-- The span ids on the ancestor chain starting from parent id `op`,
chased through the trace `t` with explicit fuel. -/
def ancestorIds (t : List Span) : Nat → Option Nat → List Nat
  | 0, _ => []
  | _, none => []
  | fuel + 1, some pid =>
    pid :: ancestorIds t fuel ((t.find? fun p => p.sid == pid).bind Span.parent)

/-- `a` is a (proper) ancestor of `b` in trace `t`. -/
def isAncestorIn (t : List Span) (a b : Span) : Bool :=
  (ancestorIds t t.length b.parent).contains a.sid

/-- Two spans lie on one execution path: they were opened on the same
logical path, or one is an ancestor of the other (an ancestor is active on
every path forked beneath it). -/
def samePath (t : List Span) (a b : Span) : Bool :=
  a.path == b.path || isAncestorIn t a b || isAncestorIn t b a

/-- LIFO closing: on a single execution path, a span opened while an
earlier span was still open closes no later than that earlier span. -/
def lifoClose (t : List Span) : Bool :=
  t.all fun a =>
    t.all fun b =>
      !(samePath t a b && decide (a.startT < b.startT) &&
          decide (b.startT < a.endT)) ||
        decide (b.endT ≤ a.endT)

/-- Join/barrier shape of the fan-out: each of the three sub-task spans
completes exactly once and with success status, and all of them end before
the following phase (the external call's span) begins. -/
def fanoutBarrier (t : List Span) : Bool :=
  match t.find? (fun sp => sp.name == "external_api_call") with
  | none => false
  | some ext =>
    asyncNames.all fun n =>
      countName t n == 1 &&
      t.all fun sp =>
        sp.name != n || (decide (sp.endT ≤ ext.startT) && !sp.status.isError)

/-- No span exists for the fan-out phase itself: every emitted span bears
one of the known names, each sub-task span occurs exactly once, and every
sub-task span is a direct child of the root span. -/
def noFanoutSpan (t : List Span) : Bool :=
  match t.find? (fun sp => sp.parent == none) with
  | none => false
  | some root =>
    t.all (fun sp => allSpanNames.contains sp.name) &&
    asyncNames.all (fun n => countName t n == 1) &&
    t.all (fun sp => !(asyncNames.contains sp.name) ||
      sp.parent == some root.sid)

/-- Shape of one invocation's trace, parameterised by whether the
invocation raised: exactly one root span named `complex_operation`; the
sequential phases `database_query`, `processing`, `external_api_call`
each have exactly one child span of the root, in that temporal order with
the fan-out spans strictly between `processing` and `external_api_call`;
`database_query` and `processing` close with success, the external span's
status reflects whether the call failed; and a `final_computation` child
span of the root follows the external span exactly when nothing raised. -/
def pipelineShape (t : List Span) (failed : Bool) : Bool :=
  match t.find? (fun sp => sp.parent == none),
      t.find? (fun sp => sp.name == "database_query"),
      t.find? (fun sp => sp.name == "processing"),
      t.find? (fun sp => sp.name == "external_api_call") with
  | some root, some db, some pr, some ext =>
    root.name == "complex_operation" &&
    (t.filter (fun sp => sp.parent == none)).length == 1 &&
    countName t "database_query" == 1 &&
    countName t "processing" == 1 &&
    countName t "external_api_call" == 1 &&
    db.parent == some root.sid && pr.parent == some root.sid &&
    ext.parent == some root.sid &&
    !db.status.isError && !pr.status.isError &&
    (ext.status.isError == failed) &&
    decide (root.startT ≤ db.startT) && decide (db.endT ≤ pr.startT) &&
    t.all (fun sp => !(asyncNames.contains sp.name) ||
      (decide (pr.endT ≤ sp.startT) && decide (sp.endT ≤ ext.startT))) &&
    (if failed then countName t "final_computation" == 0
     else
       countName t "final_computation" == 1 &&
       t.all (fun sp => sp.name != "final_computation" ||
         (sp.parent == some root.sid && decide (ext.endT ≤ sp.startT) &&
          !sp.status.isError)))
  | _, _, _, _ => false

/-- All-success trace shape: 8 spans in total, exactly one root, each of
the 8 known names exactly once, every status success, and every non-root
span a direct child of the root. -/
def successTraceShape (t : List Span) : Bool :=
  t.length == 8 &&
  (t.filter (fun sp => sp.parent == none)).length == 1 &&
  allSpanNames.all (fun n => countName t n == 1) &&
  t.all (fun sp => !sp.status.isError) &&
  (match t.find? (fun sp => sp.parent == none) with
   | none => false
   | some root =>
     root.name == "complex_operation" &&
     t.all (fun sp => sp.parent == none || sp.parent == some root.sid))

/-- Trace shape when the external call raised: exactly one
`external_api_call` span (the call is never retried), that span has error
status, and no `final_computation` span was ever created. -/
def extFailureShape (t : List Span) : Bool :=
  countName t "external_api_call" == 1 &&
  t.all (fun sp => sp.name != "external_api_call" || sp.status.isError) &&
  countName t "final_computation" == 0

/-- Modelled from the spec: the span buffer of the `BatchSpanProcessor`
configured at src/flask_app/app.py:29 — its internals are library code not
present under src/.  Spec §4.4: a bounded buffer with a configured hard
cap, a drop counter, and FIFO eviction ("if the buffer exceeds a
configured hard cap, oldest spans are dropped and a drop counter is
incremented (never block the producer)"). -/
structure ExporterState where
  capacity : Nat
  buffer : List Span
  dropped : Nat
deriving DecidableEq, Repr

/-- Modelled from the spec: `submit(span)` of §4.4 — a non-blocking
handoff; below capacity the span is appended, at capacity the oldest
buffered span is evicted and the drop counter is incremented. -/
def submit (st : ExporterState) (sp : Span) : ExporterState :=
  if st.buffer.length < st.capacity then
    { st with buffer := st.buffer ++ [sp] }
  else
    { st with buffer := st.buffer.tail ++ [sp], dropped := st.dropped + 1 }

/-- Submit a sequence of completed spans in order. -/
def submitAll (st : ExporterState) (l : List Span) : ExporterState :=
  l.foldl submit st

/-- Modelled from the spec: terminal fate of one batch handed to the
`OTLPSpanExporter` (library code not present under src/) — §4.4's span
state machine ends in Delivered or Dropped(delivery-exhausted). -/
inductive BatchFate where
  | delivered : Nat → BatchFate
  | droppedExhausted : BatchFate
deriving DecidableEq, Repr

/-- Modelled from the spec: delivery attempts `k, k+1, ...` with `n`
attempts remaining; the first successful attempt delivers the batch,
exhausting all attempts drops it. -/
def deliverAux (succeeds : Nat → Bool) : Nat → Nat → BatchFate
  | _, 0 => .droppedExhausted
  | k, n + 1 =>
    if succeeds k then .delivered k else deliverAux succeeds (k + 1) n

/-- Modelled from the spec: §4.4 `flush()` delivery — the batch is
attempted up to `export_retry_limit` times (attempts numbered from 1),
each attempt's outcome given by `succeeds`; after exhausting the limit
the batch is dropped. -/
def deliverBatch (limit : Nat) (succeeds : Nat → Bool) : BatchFate :=
  deliverAux succeeds 1 limit

/-- Modelled from the spec: the exporter's delivery-failure counter after
one batch: incremented exactly when the batch was dropped after
exhausting its retries. -/
def exportFailures (limit : Nat) (succeeds : Nat → Bool)
    (failures : Nat) : Nat :=
  match deliverBatch limit succeeds with
  | .droppedExhausted => failures + 1
  | .delivered _ => failures

/-- One invocation together with the (asynchronous) delivery of its batch:
the workflow's own outcome is paired with, and computed independently of,
the batch's fate — the exporter has no channel back into the workflow. -/
def handleAndExport (env : Env) (limit : Nat) (succeeds : Nat → Bool) :
    Except String OpResult × BatchFate :=
  ((complex_operation env).2, deliverBatch limit succeeds)

/-- Environment in which every phase succeeds: the external call returns
HTTP 200 with a JSON body. -/
def envAllOk : Env :=
  { d := fun i => i.val + 1,
    http := .resp { status_code := 200, jsonBody := some "todo1" } }

/-- Environment in which the external call returns a non-2xx status whose
body is nevertheless valid JSON. -/
def envNon2xx : Env :=
  { d := fun _ => 1,
    http := .resp { status_code := 404, jsonBody := some "not-found" } }

/-- Environment in which `requests.get` raises a transport error. -/
def envTransportFail : Env :=
  { d := fun _ => 1, http := .fail "connection refused" }

/-- A dummy completed span, used to exercise the exporter buffer. -/
def mkSpan (i : Nat) : Span :=
  { sid := i, parent := none, name := "s", startT := 0, endT := 0,
    status := .unset, path := 0 }

/-- Eight dummy spans submitted in order. -/
def spans8 : List Span := (List.range 8).map mkSpan

/-- The gather completion order is always one of the six permutations of
the three task indices. -/
theorem gatherCompletionOrder_cases (d : Fin 3 → Nat) :
    gatherCompletionOrder d = [0, 1, 2] ∨ gatherCompletionOrder d = [0, 2, 1] ∨
    gatherCompletionOrder d = [1, 0, 2] ∨ gatherCompletionOrder d = [1, 2, 0] ∨
    gatherCompletionOrder d = [2, 0, 1] ∨ gatherCompletionOrder d = [2, 1, 0] := by
  by_cases h01 : d 0 ≤ d 1 <;> by_cases h02 : d 0 ≤ d 2 <;>
    by_cases h12 : d 1 ≤ d 2 <;>
    simp [gatherCompletionOrder, insertByDur, h01, h02, h12]

/-- After any sequence of submissions into a buffer that started within
its positive capacity, the drop counter has grown by exactly the overflow
amount. -/
theorem submitAll_dropped (l : List Span) :
    ∀ st : ExporterState, 0 < st.capacity → st.buffer.length ≤ st.capacity →
      (submitAll st l).dropped =
        st.dropped + (st.buffer.length + l.length - st.capacity) := by
  induction l with
  | nil =>
    intro st hc hlen
    have h0 : st.buffer.length + ([] : List Span).length - st.capacity = 0 := by
      simp; omega
    rw [show submitAll st [] = st from rfl, h0]
    omega
  | cons a l ih =>
    intro st hc hlen
    rw [show submitAll st (a :: l) = submitAll (submit st a) l from rfl]
    by_cases hlt : st.buffer.length < st.capacity
    · have hs : submit st a = { st with buffer := st.buffer ++ [a] } := by
        simp [submit, hlt]
      rw [hs, ih { st with buffer := st.buffer ++ [a] } hc (by simp; omega)]
      simp
      omega
    · have hcap : st.buffer.length = st.capacity := by omega
      have hs : submit st a =
          { st with buffer := st.buffer.tail ++ [a],
                    dropped := st.dropped + 1 } := by
        simp [submit, hlt]
      rw [hs, ih { st with buffer := st.buffer.tail ++ [a], dropped := st.dropped + 1 }
        hc (by simp [List.length_tail]; omega)]
      simp [List.length_tail]
      omega

/-- After any sequence of submissions into a buffer that started empty...
more precisely within its positive capacity, the buffer holds exactly the
most recent `capacity`-many of the submitted spans: eviction is oldest
first. -/
theorem submitAll_buffer (l : List Span) :
    ∀ st : ExporterState, 0 < st.capacity → st.buffer.length ≤ st.capacity →
      (submitAll st l).buffer =
        (st.buffer ++ l).drop (st.buffer.length + l.length - st.capacity) := by
  induction l with
  | nil =>
    intro st hc hlen
    have h0 : st.buffer.length + ([] : List Span).length - st.capacity = 0 := by
      simp; omega
    rw [show submitAll st [] = st from rfl, h0]
    simp
  | cons a l ih =>
    intro st hc hlen
    rw [show submitAll st (a :: l) = submitAll (submit st a) l from rfl]
    by_cases hlt : st.buffer.length < st.capacity
    · have hs : submit st a = { st with buffer := st.buffer ++ [a] } := by
        simp [submit, hlt]
      rw [hs, ih { st with buffer := st.buffer ++ [a] } hc (by simp; omega)]
      have e : (st.buffer ++ [a]).length + l.length - st.capacity =
          st.buffer.length + (a :: l).length - st.capacity := by
        simp; omega
      rw [e, List.append_assoc, List.singleton_append]
    · have hcap : st.buffer.length = st.capacity := by omega
      have hs : submit st a =
          { st with buffer := st.buffer.tail ++ [a],
                    dropped := st.dropped + 1 } := by
        simp [submit, hlt]
      rw [hs, ih { st with buffer := st.buffer.tail ++ [a], dropped := st.dropped + 1 }
        hc (by simp [List.length_tail]; omega)]
      have e1 : (st.buffer.tail ++ [a]).length + l.length - st.capacity =
          l.length := by
        simp [List.length_tail]; omega
      have e2 : st.buffer.length + (a :: l).length - st.capacity =
          l.length + 1 := by
        simp; omega
      rw [e1, e2, List.append_assoc, List.singleton_append]
      rcases hb : st.buffer with _ | ⟨b, bs⟩
      · rw [hb] at hcap; simp at hcap; omega
      · simp only [List.tail_cons, List.cons_append, List.drop_succ_cons]

/-- If every attempt in the window fails, delivery exhausts its attempts
and the batch is dropped. -/
theorem deliverAux_all_fail (succeeds : Nat → Bool) :
    ∀ n k, (∀ j, k ≤ j → j < k + n → succeeds j = false) →
      deliverAux succeeds k n = .droppedExhausted := by
  intro n
  induction n with
  | zero => intro k _; rfl
  | succ n ih =>
    intro k h
    have hk : succeeds k = false := h k le_rfl (by omega)
    simp [deliverAux, hk]
    exact ih (k + 1) (fun j h1 h2 => h j (by omega) (by omega))

/-- If some attempt in the window succeeds, delivery succeeds at the first
such attempt, which lies in the window. -/
theorem deliverAux_first_success (succeeds : Nat → Bool) :
    ∀ n k j, k ≤ j → j < k + n → succeeds j = true →
      ∃ j', k ≤ j' ∧ j' ≤ j ∧ deliverAux succeeds k n = .delivered j' := by
  intro n
  induction n with
  | zero => intro k j h1 h2 _; omega
  | succ n ih =>
    intro k j h1 h2 hj
    by_cases hk : succeeds k = true
    · exact ⟨k, le_rfl, h1, by simp [deliverAux, hk]⟩
    · have hk' : succeeds k = false := by
        cases hsk : succeeds k
        · rfl
        · exact absurd hsk hk
      have hne : k ≠ j := by
        intro he
        rw [he] at hk'
        rw [hk'] at hj
        exact Bool.noConfusion hj
      obtain ⟨j', ha, hb, hc⟩ :=
        ih (k + 1) j (by omega) (by omega) hj
      exact ⟨j', by omega, hb, by simp [deliverAux, hk']; exact hc⟩

/-- A list whose optional last element is `some a` contains `a`. -/
theorem mem_of_getLast?_eq {α : Type} {l : List α} {a : α}
    (h : l.getLast? = some a) : a ∈ l := by
  obtain ⟨hne, he⟩ := List.mem_getLast?_eq_getLast (Option.mem_def.mpr h)
  rw [he]
  exact List.getLast_mem hne

/-- Claim C8: in every invocation, every completed span has end time ≥
start time, and every parent reference points at a span of the same trace
whose [start, end) interval contains the child's [start, end) interval. -/
theorem claim_C8 : ∀ env : Env, wellNested (trace env) = true := by
  rintro ⟨d, http⟩
  show wellNested
    (complexOperationWith (gatherCompletionOrder d) http).1.finished = true
  rcases gatherCompletionOrder_cases d with h | h | h | h | h | h <;> rw [h] <;>
    rcases http with msg | ⟨code, _ | j⟩ <;> rfl

set_option maxHeartbeats 3200000 in
/-- Claim C9: within any single execution path of one invocation, spans
close in strict reverse order of opening — a span opened while an earlier
span of the same path was still open closes no later than it. -/
theorem claim_C9 : ∀ env : Env, lifoClose (trace env) = true := by
  rintro ⟨d, http⟩
  show lifoClose
    (complexOperationWith (gatherCompletionOrder d) http).1.finished = true
  rcases gatherCompletionOrder_cases d with h | h | h | h | h | h <;> rw [h] <;>
    rcases http with msg | ⟨code, _ | j⟩ <;> rfl

/-- Claim C5: in every invocation, the fan-out phase completes only after
all three sub-task spans have completed — each sub-task span occurs
exactly once, closes with success status, and ends before the following
phase (the external call's span) starts.  (In this program the sub-tasks,
a sleep and a log, cannot fail, so the failure clause of the claim holds
vacuously.) -/
theorem claim_C5 : ∀ env : Env, fanoutBarrier (trace env) = true := by
  rintro ⟨d, http⟩
  show fanoutBarrier
    (complexOperationWith (gatherCompletionOrder d) http).1.finished = true
  rcases gatherCompletionOrder_cases d with h | h | h | h | h | h <;> rw [h] <;>
    rcases http with msg | ⟨code, _ | j⟩ <;> rfl

/-- Claim C3: every invocation opens a root span named
`complex_operation` and runs its phases strictly in the order
database_query, processing, fan-out of the three tasks, external call,
final computation; each sequential phase that runs has exactly one child
span of the root, closed with status derived from whether that phase's
work failed (the final phase's span exists exactly when nothing failed
before it). -/
theorem claim_C3 :
    ∀ env : Env,
      pipelineShape (trace env) (raised (complex_operation env).2) = true := by
  rintro ⟨d, http⟩
  show pipelineShape
    (complexOperationWith (gatherCompletionOrder d) http).1.finished
    (raised (complexOperationWith (gatherCompletionOrder d) http).2) = true
  rcases gatherCompletionOrder_cases d with h | h | h | h | h | h <;> rw [h] <;>
    rcases http with msg | ⟨code, _ | j⟩ <;> rfl

/-- Claim C10: the three sub-task span names are exactly "async_" followed
by the sub-task name, and in every invocation no span is created for the
fan-out phase itself — every span bears one of the known names, and each
sub-task span is a direct child of the root span. -/
theorem claim_C10 :
    asyncNames = ["async_task1", "async_task2", "async_task3"] ∧
    ∀ env : Env, noFanoutSpan (trace env) = true := by
  refine ⟨rfl, ?_⟩
  rintro ⟨d, http⟩
  show noFanoutSpan
    (complexOperationWith (gatherCompletionOrder d) http).1.finished = true
  rcases gatherCompletionOrder_cases d with h | h | h | h | h | h <;> rw [h] <;>
    rcases http with msg | ⟨code, _ | j⟩ <;> rfl

/-- Claim C1 is false as stated: in an all-success invocation the trace
has 7 descendant spans below the root, not 6, and none of them is named
"task1" or "external_call" (the sub-task spans are "async_task1..3" and
the external span is "external_api_call"). -/
theorem claim_C1_cex :
    ((trace envAllOk).filter (fun sp => sp.parent != none)).length = 7 ∧
    countName (trace envAllOk) "task1" = 0 ∧
    countName (trace envAllOk) "external_call" = 0 ∧
    (trace envAllOk).all (fun sp => !sp.status.isError) = true ∧
    (complex_operation envAllOk).2 =
      .ok { message := "Complex operation completed",
            external_data := "todo1" } :=
  ⟨rfl, rfl, rfl, rfl, rfl⟩

/-- Claim C1 (amended): in every invocation in which every phase succeeds
(the external call returns a body that parses as JSON), the trace is a
root span plus 7 descendant spans — database_query, processing,
async_task1, async_task2, async_task3, external_api_call,
final_computation — all direct children of the root, all with success
status, and the operation returns
\x7bmessage: "Complex operation completed", external_data: <object>\x7d. -/
theorem claim_C1 (env : Env) (code : Nat) (j : String)
    (h : env.http = .resp { status_code := code, jsonBody := some j }) :
    successTraceShape (trace env) = true ∧
    (complex_operation env).2 =
      .ok { message := "Complex operation completed",
            external_data := j } := by
  obtain ⟨d, http⟩ := env
  rw [show Env.http ⟨d, http⟩ = http from rfl] at h
  subst h
  constructor
  · show successTraceShape
      (complexOperationWith (gatherCompletionOrder d)
        (.resp { status_code := code, jsonBody := some j })).1.finished = true
    rcases gatherCompletionOrder_cases d with h | h | h | h | h | h <;>
      rw [h] <;> rfl
  · show (complexOperationWith (gatherCompletionOrder d)
      (.resp { status_code := code, jsonBody := some j })).2 = _
    rcases gatherCompletionOrder_cases d with h | h | h | h | h | h <;>
      rw [h] <;> rfl

/-- Witness for the amended claim C1 at a concrete all-success
environment. -/
theorem claim_C1_witness :
    successTraceShape (trace envAllOk) = true ∧
    (complex_operation envAllOk).2 =
      .ok { message := "Complex operation completed",
            external_data := "todo1" } :=
  claim_C1 envAllOk 200 "todo1" rfl

/-- Claim C2 is false as stated: when the external call returns a non-2xx
status (here 404) whose body is valid JSON, the code never inspects the
status code — the external span keeps success status, a
final_computation span is created, and the invocation returns the
success response with the body as external_data, not an error. -/
theorem claim_C2_cex :
    envNon2xx.http =
      .resp { status_code := 404, jsonBody := some "not-found" } ∧
    (complex_operation envNon2xx).2 =
      .ok { message := "Complex operation completed",
            external_data := "not-found" } ∧
    (trace envNon2xx).all
      (fun sp => sp.name != "external_api_call" || !sp.status.isError) = true ∧
    countName (trace envNon2xx) "final_computation" = 1 :=
  ⟨rfl, rfl, rfl, rfl⟩

/-- Claim C2 (amended): for every invocation in which the external call
raises — transport failure, or a response body that is not valid JSON
(the HTTP status code itself is never inspected) — exactly one
external-call span exists (the call is never retried), it is marked
error, the final_computation span is never created, and the invocation
raises, so the caller gets an error with no external_data. -/
theorem claim_C2 (env : Env) (h : extRaises env.http = true) :
    extFailureShape (trace env) = true ∧
    raised (complex_operation env).2 = true := by
  obtain ⟨d, http⟩ := env
  rw [show Env.http ⟨d, http⟩ = http from rfl] at h
  rcases http with msg | ⟨code, _ | j⟩
  · refine ⟨?_, rfl⟩
    show extFailureShape
      (complexOperationWith (gatherCompletionOrder d) (.fail msg)).1.finished
        = true
    rcases gatherCompletionOrder_cases d with h | h | h | h | h | h <;>
      rw [h] <;> rfl
  · refine ⟨?_, rfl⟩
    show extFailureShape
      (complexOperationWith (gatherCompletionOrder d)
        (.resp { status_code := code, jsonBody := none })).1.finished = true
    rcases gatherCompletionOrder_cases d with h | h | h | h | h | h <;>
      rw [h] <;> rfl
  · rw [show extRaises
      (.resp { status_code := code, jsonBody := some j }) = false from rfl] at h
    exact Bool.noConfusion h

/-- Witness for the amended claim C2 at a concrete transport-failure
environment. -/
theorem claim_C2_witness :
    extRaises envTransportFail.http = true ∧
    extFailureShape (trace envTransportFail) = true ∧
    raised (complex_operation envTransportFail).2 = true :=
  ⟨rfl, (claim_C2 envTransportFail rfl).1, (claim_C2 envTransportFail rfl).2⟩

/-- Claim C4: in every invocation in which a sequential phase fails (in
this program only the external call phase can fail, raising `e`), the run
returns that error, the root span is marked error with that first
failure's detail, no subsequent sequential phase span (final_computation)
is created, and every span completed before the failure — database_query,
processing and the three sub-task spans — is still finalized in the
emitted trace with success status. -/
theorem claim_C4 (env : Env) (e : String) (h : extErr env.http = some e) :
    (complex_operation env).2 = .error e ∧
    (∃ root ∈ trace env, root.parent = none ∧
      root.name = "complex_operation" ∧ root.status = .error e) ∧
    countName (trace env) "final_computation" = 0 ∧
    (("database_query" :: "processing" :: asyncNames).all
      (fun n => (trace env).any
        fun sp => sp.name == n && !sp.status.isError)) = true := by
  obtain ⟨d, http⟩ := env
  rw [show Env.http ⟨d, http⟩ = http from rfl] at h
  rcases http with msg | ⟨code, _ | j⟩
  · rw [show extErr (.fail msg) = some msg from rfl] at h
    injection h with he
    subst he
    refine ⟨rfl, ?_, ?_, ?_⟩
    · have hg : (trace ⟨d, .fail msg⟩).getLast? =
          some { sid := 0, parent := none, name := "complex_operation",
                 startT := 0, endT := 16, status := .error msg,
                 path := 0 } := by
        show (complexOperationWith (gatherCompletionOrder d)
          (.fail msg)).1.finished.getLast? = _
        rcases gatherCompletionOrder_cases d with h | h | h | h | h | h <;>
          rw [h] <;> rfl
      exact ⟨_, mem_of_getLast?_eq hg, rfl, rfl, rfl⟩
    · show countName (complexOperationWith (gatherCompletionOrder d)
        (.fail msg)).1.finished "final_computation" = 0
      rcases gatherCompletionOrder_cases d with h | h | h | h | h | h <;>
        rw [h] <;> rfl
    · show (("database_query" :: "processing" :: asyncNames).all
        (fun n => (complexOperationWith (gatherCompletionOrder d)
          (.fail msg)).1.finished.any
            fun sp => sp.name == n && !sp.status.isError)) = true
      rcases gatherCompletionOrder_cases d with h | h | h | h | h | h <;>
        rw [h] <;> rfl
  · rw [show extErr (.resp { status_code := code, jsonBody := none })
        = some "JSONDecodeError" from rfl] at h
    injection h with he
    subst he
    refine ⟨rfl, ?_, ?_, ?_⟩
    · have hg : (trace ⟨d, .resp { status_code := code, jsonBody := none }⟩).getLast? =
          some { sid := 0, parent := none, name := "complex_operation",
                 startT := 0, endT := 16,
                 status := .error "JSONDecodeError", path := 0 } := by
        show (complexOperationWith (gatherCompletionOrder d)
          (.resp { status_code := code, jsonBody := none })).1.finished.getLast? = _
        rcases gatherCompletionOrder_cases d with h | h | h | h | h | h <;>
          rw [h] <;> rfl
      exact ⟨_, mem_of_getLast?_eq hg, rfl, rfl, rfl⟩
    · show countName (complexOperationWith (gatherCompletionOrder d)
        (.resp { status_code := code, jsonBody := none })).1.finished
          "final_computation" = 0
      rcases gatherCompletionOrder_cases d with h | h | h | h | h | h <;>
        rw [h] <;> rfl
    · show (("database_query" :: "processing" :: asyncNames).all
        (fun n => (complexOperationWith (gatherCompletionOrder d)
          (.resp { status_code := code, jsonBody := none })).1.finished.any
            fun sp => sp.name == n && !sp.status.isError)) = true
      rcases gatherCompletionOrder_cases d with h | h | h | h | h | h <;>
        rw [h] <;> rfl
  · rw [show extErr (.resp { status_code := code, jsonBody := some j })
        = none from rfl] at h
    exact Option.noConfusion h

/-- Witness for claim C4 at a concrete transport-failure environment. -/
theorem claim_C4_witness :
    extErr envTransportFail.http = some "connection refused" ∧
    (complex_operation envTransportFail).2 =
      Except.error "connection refused" :=
  ⟨rfl, (claim_C4 envTransportFail "connection refused" rfl).1⟩

/-- Claim C6: starting from an empty buffer of positive capacity,
submitting a sequence of spans drops exactly the overflow amount —
nothing while the buffer stays within capacity — evicting oldest spans
first, so the buffer always holds the most recently submitted spans. -/
theorem claim_C6 (c : Nat) (hc : 0 < c) (l : List Span) :
    (submitAll { capacity := c, buffer := [], dropped := 0 } l).dropped =
      l.length - c ∧
    (submitAll { capacity := c, buffer := [], dropped := 0 } l).buffer =
      l.drop (l.length - c) := by
  constructor
  · rw [submitAll_dropped l { capacity := c, buffer := [], dropped := 0 }
      hc (by simp)]
    simp
  · rw [submitAll_buffer l { capacity := c, buffer := [], dropped := 0 }
      hc (by simp)]
    simp

/-- Witness for claim C6: capacity 5 with 8 submissions and no
intervening flush yields exactly 3 drops and leaves the 5 most recently
submitted spans buffered. -/
theorem claim_C6_witness :
    (submitAll { capacity := 5, buffer := [], dropped := 0 } spans8).dropped
      = 3 ∧
    (submitAll { capacity := 5, buffer := [], dropped := 0 } spans8).buffer
      = spans8.drop 3 := by
  constructor
  · rw [(claim_C6 5 (by norm_num) spans8).1]
    decide
  · rw [(claim_C6 5 (by norm_num) spans8).2]
    decide

/-- Claim C7: a batch whose delivery attempts (numbered from 1) all fail
through the retry limit is dropped and the failure counter is
incremented; if some attempt within the limit succeeds, the batch ends
Delivered at the first successful attempt, not Dropped, and the counter
is untouched; and the workflow's own outcome never depends on the
delivery outcome. -/
theorem claim_C7 (limit : Nat) (succeeds : Nat → Bool) (failures : Nat) :
    ((∀ k, 1 ≤ k → k ≤ limit → succeeds k = false) →
      deliverBatch limit succeeds = .droppedExhausted ∧
      exportFailures limit succeeds failures = failures + 1) ∧
    (∀ j, 1 ≤ j → j ≤ limit → succeeds j = true →
      ∃ k, 1 ≤ k ∧ k ≤ limit ∧
        deliverBatch limit succeeds = .delivered k ∧
        exportFailures limit succeeds failures = failures) ∧
    (∀ env : Env,
      (handleAndExport env limit succeeds).1 = (complex_operation env).2) := by
  refine ⟨?_, ?_, fun env => rfl⟩
  · intro hall
    have hd : deliverBatch limit succeeds = .droppedExhausted :=
      deliverAux_all_fail succeeds limit 1
        (fun j h1 h2 => hall j h1 (by omega))
    refine ⟨hd, ?_⟩
    unfold exportFailures
    rw [hd]
  · intro j h1 h2 hj
    obtain ⟨k, hk1, hk2, heq⟩ :=
      deliverAux_first_success succeeds limit 1 j h1 (by omega) hj
    have hd : deliverBatch limit succeeds = .delivered k := heq
    refine ⟨k, hk1, by omega, hd, ?_⟩
    unfold exportFailures
    rw [hd]

/-- Witness for claim C7: with retry limit 3, a batch failing every
attempt is dropped with the counter incremented, and a batch succeeding
on attempt 2 is delivered with the counter untouched. -/
theorem claim_C7_witness :
    (deliverBatch 3 (fun _ => false) = .droppedExhausted ∧
      exportFailures 3 (fun _ => false) 0 = 1) ∧
    (∃ k, 1 ≤ k ∧ k ≤ 3 ∧
      deliverBatch 3 (fun n => decide (n = 2)) = .delivered k ∧
      exportFailures 3 (fun n => decide (n = 2)) 0 = 0) :=
  ⟨(claim_C7 3 (fun _ => false) 0).1 (fun _ _ _ => rfl),
   (claim_C7 3 (fun n => decide (n = 2)) 0).2.1 2 (by norm_num)
     (by norm_num) rfl⟩
